import Mathlib

/-!
Verification of the mask reconstruction engine and request orchestration
pipeline of the tg_inpaint_bot repository (src/bot.py), shallowly embedded
in Lean 4.

Bytes are modelled as `Nat` (the Python code only reads bits of byte
values), pixel rows as `List Nat` (row-major, matching
`Image.frombytes "L"`), and full images as a size-indexed pixel function.
-/

/-! ### BitmaskDecoder: `_unpack_bitmask_to_L` (src/bot.py lines 77-90)

The Python function receives a base64 string, decodes it to raw bytes and
then unpacks bits; the embedding takes the decoded byte sequence directly
(base64 transport is outside the claims). The inner loop
`for bit in range(7, -1, -1): out[idx] = 255 if ((b >> bit) & 1) else 0`
emits, for byte `b`, the bit values at shifts 7, 6, ..., 0; `out` is a
zero-initialised buffer of `w * h` cells, filled until the bits run out
or the buffer is full. -/

/-- The eight bit values of one byte, most-significant bit first,
mirroring `for bit in range(7, -1, -1): ... (b >> bit) & 1`. -/
def bitsOfByte (b : Nat) : List Nat :=
  (List.range 8).map (fun k => (b >>> (7 - k)) % 2)

/-- The whole bit stream of a byte sequence, byte by byte, MSB first
(the outer `for b in raw` loop). -/
def bitstream : List Nat → List Nat
  | [] => []
  | b :: rest => bitsOfByte b ++ bitstream rest

/-- Bit `i` of the byte sequence in MSB-first consumption order:
bit `7 - i % 8` of byte `i / 8` (missing bytes read as 0). -/
def bitAt (raw : List Nat) (i : Nat) : Nat :=
  ((raw.getD (i / 8) 0) >>> (7 - i % 8)) % 2

/-- `_unpack_bitmask_to_L` from src/bot.py: a zero-initialised buffer of
`w * h` pixels is filled sequentially with 255 for 1-bits and 0 for
0-bits, stopping at `w * h` pixels or at the end of the input, whichever
comes first; remaining cells keep their initial 0. -/
def unpack_bitmask_to_L (raw : List Nat) (w h : Nat) : List Nat :=
  let total := w * h
  let pix := ((bitstream raw).take total).map (fun bit => if bit = 1 then 255 else 0)
  pix ++ List.replicate (total - pix.length) 0

theorem length_bitsOfByte (b : Nat) : (bitsOfByte b).length = 8 := by
  simp [bitsOfByte]

theorem length_bitstream (raw : List Nat) :
    (bitstream raw).length = 8 * raw.length := by
  induction raw with
  | nil => rfl
  | cons b rest ih =>
      simp [bitstream, length_bitsOfByte, ih]
      ring

theorem bitsOfByte_getD (b : Nat) (i : Nat) (hi : i < 8) :
    (bitsOfByte b).getD i 0 = (b >>> (7 - i)) % 2 := by
  simp [bitsOfByte, List.getD_eq_getElem?_getD, List.getElem?_map,
    List.getElem?_range, hi]

theorem bitstream_getD (raw : List Nat) (i : Nat) (hi : i < 8 * raw.length) :
    (bitstream raw).getD i 0 = bitAt raw i := by
  induction raw generalizing i with
  | nil => simp at hi
  | cons b rest ih =>
      by_cases h8 : i < 8
      · have hlt : i < (bitsOfByte b).length := by
          rw [length_bitsOfByte]; exact h8
        rw [bitstream, List.getD_eq_getElem?_getD, List.getElem?_append_left hlt,
          ← List.getD_eq_getElem?_getD]
        rw [bitsOfByte_getD b i h8]
        have hdiv : i / 8 = 0 := Nat.div_eq_of_lt h8
        have hmod : i % 8 = i := Nat.mod_eq_of_lt h8
        simp [bitAt, hdiv, hmod]
      · push_neg at h8
        have hlen : (bitsOfByte b).length ≤ i := by rw [length_bitsOfByte]; exact h8
        rw [bitstream, List.getD_eq_getElem?_getD, List.getElem?_append_right hlen,
          ← List.getD_eq_getElem?_getD, length_bitsOfByte]
        have hi' : i - 8 < 8 * rest.length := by
          simp only [List.length_cons] at hi; omega
        rw [ih (i - 8) hi']
        have hdiv : i / 8 = (i - 8) / 8 + 1 := by omega
        have hmod : i % 8 = (i - 8) % 8 := by omega
        simp [bitAt, hdiv, hmod]

theorem unpack_pix_length (raw : List Nat) (w h : Nat) :
    (((bitstream raw).take (w * h)).map
      (fun bit => if bit = 1 then 255 else 0)).length =
      min (w * h) (8 * raw.length) := by
  simp [List.length_take, length_bitstream]

/-- C1: for every target size `(w, h)` and every byte sequence, the
decoded bitmap has exactly `w * h` pixels; pixel `i` is 255 exactly when
`i < 8 * |input|` and bit `i` of the input (MSB-first consumption order)
is 1, and 0 otherwise — in particular every pixel at or beyond the
exhausted input is 0, and input bits beyond the first `w * h` are
ignored (the pixel at `i` depends only on bit `i`). -/
theorem unpack_bitmask_to_L_spec (raw : List Nat) (w h : Nat) :
    (unpack_bitmask_to_L raw w h).length = w * h ∧
    ∀ i, i < w * h →
      (unpack_bitmask_to_L raw w h).getD i 0 =
        if i < 8 * raw.length ∧ bitAt raw i = 1 then 255 else 0 := by
  constructor
  · have hle : min (w * h) (8 * raw.length) ≤ w * h := Nat.min_le_left _ _
    simp only [unpack_bitmask_to_L, List.length_append, unpack_pix_length,
      List.length_replicate]
    omega
  · intro i hi
    by_cases hbits : i < 8 * raw.length
    · have hpix : i < (((bitstream raw).take (w * h)).map
          (fun bit => if bit = 1 then 255 else 0)).length := by
        rw [unpack_pix_length]; omega
      rw [unpack_bitmask_to_L]
      rw [List.getD_eq_getElem?_getD, List.getElem?_append_left hpix,
        ← List.getD_eq_getElem?_getD]
      have htake : i < ((bitstream raw).take (w * h)).length := by
        simpa using hpix
      rw [List.getD_eq_getElem?_getD, List.getElem?_map]
      have hstream : i < (bitstream raw).length := by
        rw [length_bitstream]; exact hbits
      have hval : ((bitstream raw).take (w * h))[i]? = some (bitAt raw i) := by
        rw [List.getElem?_take_of_lt hi]
        have := bitstream_getD raw i hbits
        rw [List.getD_eq_getElem?_getD] at this
        rw [List.getElem?_eq_getElem hstream] at this ⊢
        simpa using congrArg some this
      rw [hval]
      simp only [Option.map_some, Option.getD_some, hbits, true_and]
      by_cases hb : bitAt raw i = 1 <;> simp [hb]
    · have hpixlen : (((bitstream raw).take (w * h)).map
          (fun bit => if bit = 1 then 255 else 0)).length ≤ i := by
        rw [unpack_pix_length]; omega
      rw [unpack_bitmask_to_L]
      rw [List.getD_eq_getElem?_getD, List.getElem?_append_right hpixlen]
      have hrep : i - (((bitstream raw).take (w * h)).map
          (fun bit => if bit = 1 then 255 else 0)).length <
          (w * h) - (((bitstream raw).take (w * h)).map
            (fun bit => if bit = 1 then 255 else 0)).length := by
        rw [unpack_pix_length]; omega
      rw [List.getElem?_replicate]
      simp only [hrep, if_pos]
      simp [hbits]

/-- Witness for C1 at the spec's own example: single byte `0b11000000`
with target `2 × 2` decodes to `[255, 255, 0, 0]`. -/
theorem unpack_bitmask_to_L_spec_witness :
    (unpack_bitmask_to_L [192] 2 2).length = 2 * 2 ∧
    (unpack_bitmask_to_L [192] 2 2).getD 0 0 = 255 ∧
    (unpack_bitmask_to_L [192] 2 2).getD 3 0 = 0 := by
  refine ⟨(unpack_bitmask_to_L_spec [192] 2 2).1, ?_, ?_⟩
  · have h := (unpack_bitmask_to_L_spec [192] 2 2).2 0 (by decide)
    rw [h]; decide
  · have h := (unpack_bitmask_to_L_spec [192] 2 2).2 3 (by decide)
    rw [h]; decide

/-! ### Packed-bit encoder (round-trip law, C7)

The encoder lives in the client surface (the WebApp producing the
`bitmask` payload field), whose source is not part of src/. -/

/-- Numeric value of one mask bit: 1 for a selected pixel, 0 otherwise. -/
def bitVal (b : Bool) : Nat := if b then 1 else 0

/-- Modelled from the spec: the client-side packing of a boolean pixel
pattern into one byte, "a bit-per-pixel binary image serialized MSB-first
into a byte sequence" — the first list element becomes the
most-significant bit. -/
def byteOfBits (bits : List Bool) : Nat :=
  bits.foldl (fun acc b => 2 * acc + bitVal b) 0

/-- Modelled from the spec: the client-side packed bitmask encoder, which
serializes the pattern MSB-first in chunks of 8, the final partial byte
zero-padded at the least-significant end. -/
def packBits (bits : List Bool) : List Nat :=
  if hb : bits = [] then []
  else
    let chunk := bits.take 8
    byteOfBits (chunk ++ List.replicate (8 - chunk.length) false) :: packBits (bits.drop 8)
termination_by bits.length
decreasing_by
  have hlen : bits.length ≠ 0 := fun hz => hb (List.length_eq_zero.mp hz)
  simp only [List.length_drop]
  omega

theorem bitsOfByte_byteOfBits8 :
    ∀ a b c d e f g h : Bool,
      bitsOfByte (byteOfBits [a, b, c, d, e, f, g, h]) =
        [bitVal a, bitVal b, bitVal c, bitVal d, bitVal e, bitVal f, bitVal g, bitVal h] := by
  decide

theorem bitsOfByte_byteOfBits (p : List Bool) (hp : p.length = 8) :
    bitsOfByte (byteOfBits p) = p.map bitVal := by
  rcases p with _ | ⟨a, p⟩; · simp at hp
  rcases p with _ | ⟨b, p⟩; · simp at hp
  rcases p with _ | ⟨c, p⟩; · simp at hp
  rcases p with _ | ⟨d, p⟩; · simp at hp
  rcases p with _ | ⟨e, p⟩; · simp at hp
  rcases p with _ | ⟨f, p⟩; · simp at hp
  rcases p with _ | ⟨g, p⟩; · simp at hp
  rcases p with _ | ⟨x, p⟩; · simp at hp
  rcases p with _ | ⟨y, p⟩
  · exact bitsOfByte_byteOfBits8 a b c d e f g x
  · simp at hp

theorem bitstream_packBits (L : List Bool) :
    bitstream (packBits L) =
      L.map bitVal ++ List.replicate (8 * (packBits L).length - L.length) 0 := by
  induction L using packBits.induct with
  | case1 => simp [packBits, bitstream]
  | case2 bits hb ih =>
      rw [packBits]
      simp only [hb, dif_neg, not_false_iff]
      rw [bitstream]
      have hpad : ((bits.take 8) ++ List.replicate (8 - (bits.take 8).length) false).length = 8 := by
        simp only [List.length_append, List.length_take, List.length_replicate]
        omega
      rw [bitsOfByte_byteOfBits _ hpad]
      rw [List.map_append, List.map_replicate]
      have hbv : bitVal false = 0 := rfl
      rw [hbv, ih]
      by_cases h8 : bits.length ≤ 8
      · have hdrop : bits.drop 8 = [] := List.drop_eq_nil_of_le h8
        have htake : bits.take 8 = bits := List.take_of_length_le h8
        rw [hdrop, htake]
        have hnil : packBits ([] : List Bool) = [] := by
          rw [packBits]
          simp
        rw [hnil]
        simp only [List.map_nil, List.length_nil, List.length_cons, Nat.mul_zero,
          Nat.sub_self, List.replicate_zero, List.append_nil, List.nil_append]
      · push_neg at h8
        have htakelen : (bits.take 8).length = 8 := by
          simp only [List.length_take]
          omega
        rw [htakelen]
        simp only [Nat.sub_self, List.replicate_zero, List.append_nil]
        have hmapsplit : bits.map bitVal = (bits.take 8).map bitVal ++ (bits.drop 8).map bitVal := by
          rw [← List.map_append, List.take_append_drop]
        rw [hmapsplit, List.append_assoc]
        rw [List.append_cancel_left_eq]
        rw [List.append_cancel_left_eq]
        congr 1
        simp only [List.length_cons, List.length_drop]
        omega

theorem length_le_packBits (L : List Bool) : L.length ≤ 8 * (packBits L).length := by
  have h := congrArg List.length (bitstream_packBits L)
  rw [length_bitstream] at h
  simp only [List.length_append, List.length_map, List.length_replicate] at h
  omega

/-- C7: packing any 0/1 pattern of size `w × h` into MSB-first bytes and
decoding that byte sequence at target size `(w, h)` reproduces the
pattern exactly, with 1 ↦ 255 and 0 ↦ 0 (round-trip law; the encoder is
modelled from the spec since the client packer is outside src/). -/
theorem pack_unpack_roundtrip (pattern : List Bool) (w h : Nat)
    (hlen : pattern.length = w * h) :
    unpack_bitmask_to_L (packBits pattern) w h =
      pattern.map (fun b => if b then 255 else 0) := by
  have hle : pattern.length ≤ 8 * (packBits pattern).length := length_le_packBits pattern
  rw [unpack_bitmask_to_L]
  rw [bitstream_packBits]
  have htake : ((pattern.map bitVal ++
      List.replicate (8 * (packBits pattern).length - pattern.length) 0).take (w * h)) =
      pattern.map bitVal := by
    rw [← hlen]
    rw [List.take_append_eq_append_take]
    have h1 : (pattern.map bitVal).take pattern.length = pattern.map bitVal := by
      apply List.take_of_length_le
      simp
    rw [h1]
    simp
  rw [htake]
  have hmap : (pattern.map bitVal).map (fun bit => if bit = 1 then 255 else 0) =
      pattern.map (fun b => if b then 255 else 0) := by
    rw [List.map_map]
    apply List.map_congr_left
    intro b _
    cases b <;> rfl
  rw [hmap]
  have hlen2 : (pattern.map fun b => if b then 255 else 0).length = w * h := by
    simp [hlen]
  rw [hlen2]
  simp

/-- Witness for C7 at the spec's example pattern `[1,1,0,0]` of size
`2 × 2`. -/
theorem pack_unpack_roundtrip_witness :
    unpack_bitmask_to_L (packBits [true, true, false, false]) 2 2 =
      [255, 255, 0, 0] := by
  have h := pack_unpack_roundtrip [true, true, false, false] 2 2 (by decide)
  rw [h]
  rfl

/-! ### MaskCompositor: `_build_fullsize_mask` (src/bot.py lines 92-101)

Greyscale images are modelled as a size plus a total pixel function
(row-major access `pix x y` for `0 ≤ x < width`, `0 ≤ y < height`).
`small_mask.resize((w, h), Image.NEAREST)` is modelled with the nearest
sample at the output pixel centre, `src = ⌊(dst + 1/2) · srcSize/dstSize⌋`;
`mask_full.paste(m, (x, y))` writes `m` at offset `(x, y)`, clipped to
the canvas (PIL clips a paste box that sticks out of the image). -/

structure ImageL where
  width : Nat
  height : Nat
  pix : Nat → Nat → Nat

/-- `small_mask.resize((w, h), Image.NEAREST)`. -/
def resizeNearest (img : ImageL) (w h : Nat) : ImageL :=
  ⟨w, h, fun i j =>
    img.pix ((2 * i + 1) * img.width / (2 * w)) ((2 * j + 1) * img.height / (2 * h))⟩

/-- `Image.new("L", (nat_w, nat_h), 0)`. -/
def zeroCanvas (w h : Nat) : ImageL := ⟨w, h, fun _ _ => 0⟩

/-- `_build_fullsize_mask` from src/bot.py: start from an all-zero
`nat_w × nat_h` canvas; if `w > 0 and h > 0 and x < nat_w and y < nat_h`,
clamp `w = min(w, nat_w - x)` and `h = min(h, nat_h - y)`, and if both
clamped sizes are still positive, resize the small mask with nearest
sampling and paste it at `(x, y)` (clipped to the canvas). -/
def build_fullsize_mask (nat_w nat_h : Nat) (bbox : Int × Int × Int × Int)
    (small_mask : ImageL) : ImageL :=
  let x := bbox.1
  let y := bbox.2.1
  let w := bbox.2.2.1
  let h := bbox.2.2.2
  if 0 < w ∧ 0 < h ∧ x < (nat_w : Int) ∧ y < (nat_h : Int) then
    let w' := min w ((nat_w : Int) - x)
    let h' := min h ((nat_h : Int) - y)
    if 0 < w' ∧ 0 < h' then
      let m := resizeNearest small_mask w'.toNat h'.toNat
      ⟨nat_w, nat_h, fun px py =>
        if x ≤ (px : Int) ∧ (px : Int) < x + w' ∧ y ≤ (py : Int) ∧ (py : Int) < y + h' then
          m.pix ((px : Int) - x).toNat ((py : Int) - y).toNat
        else 0⟩
    else zeroCanvas nat_w nat_h
  else zeroCanvas nat_w nat_h

/-- C2: for every canvas size, bounding box and binary (0/255) small
mask, the composited mask has size `nat_w × nat_h`, every pixel is
exactly 0 or 255, every pixel outside the bounding box (hence outside
the bounding box clipped to `[0, nat_w) × [0, nat_h)`) is 0, and the
degenerate boxes — `x ≥ nat_w`, `y ≥ nat_h`, `w ≤ 0`, `h ≤ 0`, or a
clamped dimension `≤ 0` — yield the all-zero canvas. -/
theorem build_fullsize_mask_spec (nat_w nat_h : Nat) (x y w h : Int)
    (small_mask : ImageL)
    (hbin : ∀ i j, small_mask.pix i j = 0 ∨ small_mask.pix i j = 255) :
    (build_fullsize_mask nat_w nat_h (x, y, w, h) small_mask).width = nat_w ∧
    (build_fullsize_mask nat_w nat_h (x, y, w, h) small_mask).height = nat_h ∧
    (∀ px py, (build_fullsize_mask nat_w nat_h (x, y, w, h) small_mask).pix px py = 0 ∨
      (build_fullsize_mask nat_w nat_h (x, y, w, h) small_mask).pix px py = 255) ∧
    (∀ px py : Nat,
      ¬(x ≤ (px : Int) ∧ (px : Int) < x + w ∧ y ≤ (py : Int) ∧ (py : Int) < y + h) →
      (build_fullsize_mask nat_w nat_h (x, y, w, h) small_mask).pix px py = 0) ∧
    (((nat_w : Int) ≤ x ∨ (nat_h : Int) ≤ y ∨ w ≤ 0 ∨ h ≤ 0 ∨
        min w ((nat_w : Int) - x) ≤ 0 ∨ min h ((nat_h : Int) - y) ≤ 0) →
      ∀ px py, (build_fullsize_mask nat_w nat_h (x, y, w, h) small_mask).pix px py = 0) := by
  unfold build_fullsize_mask
  simp only
  by_cases hguard : 0 < w ∧ 0 < h ∧ x < (nat_w : Int) ∧ y < (nat_h : Int)
  · rw [if_pos hguard]
    by_cases hclamp : 0 < min w ((nat_w : Int) - x) ∧ 0 < min h ((nat_h : Int) - y)
    · rw [if_pos hclamp]
      refine ⟨rfl, rfl, ?_, ?_, ?_⟩
      · intro px py
        dsimp only
        by_cases hin : x ≤ (px : Int) ∧ (px : Int) < x + min w ((nat_w : Int) - x) ∧
            y ≤ (py : Int) ∧ (py : Int) < y + min h ((nat_h : Int) - y)
        · rw [if_pos hin]
          exact hbin _ _
        · rw [if_neg hin]
          exact Or.inl rfl
      · intro px py hout
        dsimp only
        have hnotin : ¬(x ≤ (px : Int) ∧ (px : Int) < x + min w ((nat_w : Int) - x) ∧
            y ≤ (py : Int) ∧ (py : Int) < y + min h ((nat_h : Int) - y)) := by
          intro hin
          exact hout ⟨hin.1, by omega, hin.2.2.1, by omega⟩
        rw [if_neg hnotin]
      · intro hdeg px py
        exfalso
        omega
    · rw [if_neg hclamp]
      exact ⟨rfl, rfl, fun _ _ => Or.inl rfl, fun _ _ _ => rfl, fun _ _ _ => rfl⟩
  · rw [if_neg hguard]
    exact ⟨rfl, rfl, fun _ _ => Or.inl rfl, fun _ _ _ => rfl, fun _ _ _ => rfl⟩

/-- An all-selected 2×2 small mask, used to instantiate C2. -/
def allOnSmall : ImageL := ⟨2, 2, fun _ _ => 255⟩

/-- Witness for C2 at the spec's end-to-end sizes: a binary 2×2 mask
composited onto a 10×10 canvas at bbox `(2, 2, 2, 2)`. -/
theorem build_fullsize_mask_spec_witness :
    (build_fullsize_mask 10 10 (2, 2, 2, 2) allOnSmall).width = 10 ∧
    (build_fullsize_mask 10 10 (2, 2, 2, 2) allOnSmall).pix 0 0 = 0 := by
  have hspec := build_fullsize_mask_spec 10 10 2 2 2 2 allOnSmall
    (fun _ _ => Or.inr rfl)
  exact ⟨hspec.1, hspec.2.2.2.1 0 0 (by decide)⟩

/-! ### TranslationChain: `translate_ru_to_en` (src/bot.py lines 130-176)

The chain's observable inputs are abstracted as an environment: the
(stripped) DeepL API key and, for each provider, what its HTTP call
would produce. A provider call either raises (network error, malformed
JSON — the surrounding `try/except` absorbs it), returns a non-200
status with a body (logged, fallthrough), or returns status 200 with an
optionally-present translated-text field. The embedding also returns
the list of providers actually invoked, in call order, so that
short-circuit ("a later provider is never invoked once an earlier one
succeeds") and zero-network-call facts are statable. The function is
total: no outcome of any provider escapes as an error. -/

/-- Outcome of one provider's HTTP call, as seen by the chain. -/
inductive ProviderResponse where
  | exn : ProviderResponse
  | badStatus : Nat → String → ProviderResponse
  | ok : Option String → ProviderResponse

/-- Environment of the chain: `DEEPL_API_KEY` (already stripped; DeepL is
attempted only when it is nonempty) and each provider's would-be
response. The LibreTranslate key only changes the request payload, not
the control flow. -/
structure TranslateEnv where
  deeplKey : String
  deepl : ProviderResponse
  libreKey : String
  libre : ProviderResponse

/-- A provider succeeds exactly when its call returns status 200 and a
present, nonempty translated string (`if tr:` in the source). -/
def providerSuccess : ProviderResponse → Option String
  | ProviderResponse.ok (some tr) => if tr = "" then none else some tr
  | _ => none

/-- Match of `CYRILLIC_RE = re.compile(r"[А-Яа-яЁё]")` on one character:
the contiguous block U+0410–U+044F plus Ё (U+0401) and ё (U+0451). -/
def isCyrillicChar (c : Char) : Bool :=
  (0x410 ≤ c.toNat && c.toNat ≤ 0x44F) || c.toNat = 0x401 || c.toNat = 0x451

/-- `CYRILLIC_RE.search(text)` finds a match. -/
def hasCyrillic (s : String) : Bool := s.toList.any isCyrillicChar

/-- `translate_ru_to_en` from src/bot.py, together with the list of
providers invoked (in order): return the input unchanged when it is
empty or has no Cyrillic character; otherwise try DeepL when a key is
configured, then LibreTranslate, returning the first nonempty
translation with its provider id, and the original text with no
provider when both fall through. -/
def translate_ru_to_en (env : TranslateEnv) (text : String) :
    (String × Option String) × List String :=
  if text = "" ∨ hasCyrillic text = false then ((text, none), [])
  else if env.deeplKey = "" then
    match providerSuccess env.libre with
    | some tr => ((tr, some "libre"), ["libre"])
    | none => ((text, none), ["libre"])
  else
    match providerSuccess env.deepl with
    | some tr => ((tr, some "deepl"), ["deepl"])
    | none =>
      match providerSuccess env.libre with
      | some tr => ((tr, some "libre"), ["deepl", "libre"])
      | none => ((text, none), ["deepl", "libre"])

/-- C5: for every text requiring translation, when DeepL is configured
(nonempty key) and its call yields a nonempty translated string, the
chain returns that translation attributed to "deepl" and the list of
invoked providers is exactly `["deepl"]` — LibreTranslate is never
invoked. -/
theorem deepl_short_circuit (env : TranslateEnv) (text tr : String)
    (hcyr : hasCyrillic text = true)
    (hkey : env.deeplKey ≠ "")
    (hok : providerSuccess env.deepl = some tr) :
    translate_ru_to_en env text = ((tr, some "deepl"), ["deepl"]) := by
  have hne : ¬(text = "" ∨ hasCyrillic text = false) := by
    rintro (rfl | hfalse)
    · exact absurd hcyr (by decide)
    · rw [hcyr] at hfalse
      exact Bool.noConfusion hfalse
  rw [translate_ru_to_en, if_neg hne, if_neg hkey, hok]

/-- Witness for C5: a Cyrillic prompt, a configured DeepL key and a
successful DeepL response short-circuit the chain. -/
theorem deepl_short_circuit_witness :
    translate_ru_to_en
      ⟨"key", ProviderResponse.ok (some "a cat"), "", ProviderResponse.exn⟩
      "кот" = (("a cat", some "deepl"), ["deepl"]) :=
  deepl_short_circuit
    ⟨"key", ProviderResponse.ok (some "a cat"), "", ProviderResponse.exn⟩
    "кот" "a cat" (by decide) (by decide) rfl

/-- C6: the chain is a total function (no provider outcome — raised
exception, non-200 status, malformed or empty result — ever escapes to
the caller), and whenever no provider produces a nonempty translation
(DeepL missing its credential or failing, LibreTranslate failing) it
returns the original text with no provider attributed. -/
theorem translate_all_fail (env : TranslateEnv) (text : String)
    (hd : env.deeplKey = "" ∨ providerSuccess env.deepl = none)
    (hl : providerSuccess env.libre = none) :
    (translate_ru_to_en env text).1 = (text, none) := by
  rw [translate_ru_to_en]
  by_cases hne : text = "" ∨ hasCyrillic text = false
  · rw [if_pos hne]
  · rw [if_neg hne]
    rcases hd with hd | hd
    · rw [if_pos hd, hl]
    · by_cases hkey : env.deeplKey = ""
      · rw [if_pos hkey, hl]
      · rw [if_neg hkey, hd, hl]

/-- Witness for C6: a Cyrillic prompt with DeepL raising and
LibreTranslate answering 500 comes back unchanged, unattributed. -/
theorem translate_all_fail_witness :
    (translate_ru_to_en
      ⟨"key", ProviderResponse.exn, "", ProviderResponse.badStatus 500 "err"⟩
      "кот").1 = ("кот", none) :=
  translate_all_fail
    ⟨"key", ProviderResponse.exn, "", ProviderResponse.badStatus 500 "err"⟩
    "кот" (Or.inr rfl) rfl

/-- C8: for every empty text or text with no Cyrillic character, the
chain returns the text unchanged with no provider attributed and
invokes zero providers (no network calls). -/
theorem translate_no_cyrillic (env : TranslateEnv) (text : String)
    (h : text = "" ∨ hasCyrillic text = false) :
    translate_ru_to_en env text = ((text, none), []) := by
  rw [translate_ru_to_en, if_pos h]

/-- Witness for C8: a Latin-only prompt is returned unchanged with an
empty invocation list, even with both providers ready to answer. -/
theorem translate_no_cyrillic_witness :
    translate_ru_to_en
      ⟨"key", ProviderResponse.ok (some "yes"), "k2", ProviderResponse.ok (some "yes")⟩
      "hello" = (("hello", none), []) :=
  translate_no_cyrillic
    ⟨"key", ProviderResponse.ok (some "yes"), "k2", ProviderResponse.ok (some "yes")⟩
    "hello" (Or.inr (by decide))

/-! ### String helpers mirroring the Python primitives used by the
orchestrator: `str.strip()`, `"needle" in hay`, `txt[:400]`. -/

/-- The whitespace stripped by Python's `str.strip()` (ASCII part). -/
def isSpaceChar (c : Char) : Bool :=
  c = ' ' || c = '\t' || c = '\n' || c = '\r' || c = '\x0b' || c = '\x0c'

/-- Python `s.strip()`: drop whitespace from both ends. -/
def pyStrip (s : String) : String :=
  String.mk (((s.toList.dropWhile isSpaceChar).reverse.dropWhile isSpaceChar).reverse)

/-- Python `s[:n]`. -/
def strTake (s : String) (n : Nat) : String := String.mk (s.toList.take n)

/-- Python `needle in hay` (substring containment). -/
def strContains (hay needle : String) : Bool :=
  (List.range (hay.toList.length + 1)).any fun i =>
    (hay.toList.drop i).take needle.toList.length == needle.toList

/-! ### Backend call: `call_stability_inpaint` (src/bot.py lines 103-123)

The HTTP exchange is abstracted as the response the Stability endpoint
returns; the embedding covers the response handling (lines 114-123) and,
for C9, the form construction of the `prompt` field (lines 110-111). -/

structure StabilityResponse where
  status : Nat
  contentType : String
  body : String
  imageBytes : List Nat

/-- The two `RuntimeError`s of `call_stability_inpaint`:
`"Stability API error: {status} {txt}"` for a non-200 status and
`"Unexpected content-type: {ctype} | body: {txt[:400]}"` for a 200
response without image content. -/
inductive StabilityError where
  | apiError : Nat → String → StabilityError
  | badContentType : String → String → StabilityError

/-- The prompt field of the outbound multipart form:
`if prompt.strip(): form.add_field("prompt", prompt.strip())` — present
with the stripped value exactly when the stripped prompt is nonempty. -/
def formPromptField (prompt : String) : Option String :=
  if pyStrip prompt = "" then none else some (pyStrip prompt)

/-- Response handling of `call_stability_inpaint`: a non-200 status
raises with the status and the (full) body; a 200 response whose
`Content-Type` does not contain `"image/"` raises with the content type
and the body cut to 400 characters; otherwise the image bytes are
returned. -/
def stability_handle_response (r : StabilityResponse) :
    Except StabilityError (List Nat) :=
  if r.status ≠ 200 then Except.error (StabilityError.apiError r.status r.body)
  else if strContains r.contentType "image/" = false then
    Except.error (StabilityError.badContentType r.contentType (strTake r.body 400))
  else Except.ok r.imageBytes

/-- C3 (amended): the submit-edit call fails exactly when the status is
not 200 or the content type does not contain `"image/"`; a non-success
status yields the error carrying that status and the FULL response body
(no truncation on this path); a 200 response with non-image content
yields the error carrying the content type and the body truncated to
400 characters, never a returned image. -/
theorem stability_response_spec (r : StabilityResponse) :
    ((∃ img, stability_handle_response r = Except.ok img) ↔
      (r.status = 200 ∧ strContains r.contentType "image/" = true)) ∧
    (r.status ≠ 200 →
      stability_handle_response r =
        Except.error (StabilityError.apiError r.status r.body)) ∧
    (r.status = 200 → strContains r.contentType "image/" = false →
      stability_handle_response r =
        Except.error (StabilityError.badContentType r.contentType (strTake r.body 400))) := by
  refine ⟨?_, ?_, ?_⟩
  · constructor
    · rintro ⟨img, himg⟩
      rw [stability_handle_response] at himg
      by_cases hs : r.status ≠ 200
      · rw [if_pos hs] at himg
        exact absurd himg (by simp)
      · push_neg at hs
        refine ⟨hs, ?_⟩
        by_cases hc : strContains r.contentType "image/" = false
        · rw [if_neg (by simpa using hs), if_pos hc] at himg
          exact absurd himg (by simp)
        · simpa using hc
    · rintro ⟨hs, hc⟩
      refine ⟨r.imageBytes, ?_⟩
      rw [stability_handle_response, if_neg (by simpa using hs),
        if_neg (by simp [hc])]
  · intro hs
    rw [stability_handle_response, if_pos hs]
  · intro hs hc
    rw [stability_handle_response, if_neg (by simpa using hs), if_pos hc]

/-- Witness for C3: a 404 response with body `"not found"` yields the
error carrying status 404 and that body; a 200 response typed
`application/json` yields the content-type error, not an image. -/
theorem stability_response_spec_witness :
    stability_handle_response ⟨404, "text/html", "not found", []⟩ =
      Except.error (StabilityError.apiError 404 "not found") ∧
    stability_handle_response ⟨200, "application/json", "{}", []⟩ =
      Except.error (StabilityError.badContentType "application/json" "{}") := by
  constructor
  · exact (stability_response_spec ⟨404, "text/html", "not found", []⟩).2.1 (by decide)
  · have h := (stability_response_spec
      ⟨200, "application/json", "{}", []⟩).2.2 rfl (by decide)
    rw [h]
    rfl

/-- A 500-character response body, longer than the 400-character cut
used by the code's only truncation. -/
def longBody : String := String.mk (List.replicate 500 'x')

set_option maxRecDepth 4000 in
/-- Counterexample to C3 as stated: on a non-success status the error
carries the FULL response body, not a truncated snippet — at status 404
with a 500-character body, the carried body is the whole 500-character
string, which differs from its 400-character truncation. -/
theorem stability_truncation_counterexample :
    stability_handle_response ⟨404, "text/html", longBody, []⟩ =
      Except.error (StabilityError.apiError 404 longBody) ∧
    longBody.toList.length = 500 ∧
    strTake longBody 400 ≠ longBody := by
  refine ⟨rfl, by decide, by decide⟩

/-! ### InpaintOrchestrator intake: `webapp_data` (src/bot.py lines 209-291)

The inbound WebApp payload and its validation (lines 224-235). JSON
fields are modelled as optional values of their parsed shape; Python
truthiness on strings makes `None` and `""` interchangeable at the `or`
fallbacks and the required-field check. -/

structure Payload where
  img : Option String
  prompt : Option String
  nat_w : Option Int
  nat_h : Option Int
  bm_w : Option Int
  bm_h : Option Int
  bbox : Option (Int × Int × Int × Int)
  bitmask : Option String

/-- Python falsiness of an optional string: absent or empty. -/
def isFalsyStr : Option String → Bool
  | none => true
  | some s => s == ""

/-- `data.get("img") or LAST_IMAGE_URL.get(update.effective_user.id)`:
a present nonempty `img` wins, otherwise the user's stored last-image
reference (which may itself be absent). -/
def resolveImg (img : Option String) (last : Option String) : Option String :=
  match img with
  | some s => if s = "" then last else some s
  | none => last

/-- The values the pipeline continues with after validation. -/
structure ValidatedRequest where
  img_url : String
  prompt : String
  nat_w : Int
  nat_h : Int
  bm_w : Int
  bm_h : Int
  bbox : Int × Int × Int × Int
  b64mask : String

/-- The single fixed reply sent for any missing required field
(src/bot.py line 234). -/
def missingFieldsMsg : String :=
  "❌ Нет обязательных полей (img/mask/size). Откройте кисть и попробуйте снова."

/-- The validation stage of `webapp_data` (lines 224-235): resolve the
image reference with the stored-last-image fallback, default the prompt
to `""` and strip it, default the numeric fields to 0 and the bbox to
`[0, 0, 0, 0]`, then fail with the fixed message when the resolved
image, the bitmask, or any of `nat_w/nat_h/bm_w/bm_h` is falsy. -/
def webappValidate (p : Payload) (last : Option String) :
    Except String ValidatedRequest :=
  let img_url := resolveImg p.img last
  let prompt := pyStrip (p.prompt.getD "")
  let nat_w := p.nat_w.getD 0
  let nat_h := p.nat_h.getD 0
  let bm_w := p.bm_w.getD 0
  let bm_h := p.bm_h.getD 0
  let bbox := p.bbox.getD (0, 0, 0, 0)
  if isFalsyStr img_url = true ∨ isFalsyStr p.bitmask = true ∨
      nat_w = 0 ∨ nat_h = 0 ∨ bm_w = 0 ∨ bm_h = 0 then
    Except.error missingFieldsMsg
  else
    Except.ok ⟨img_url.getD "", prompt, nat_w, nat_h, bm_w, bm_h, bbox,
      p.bitmask.getD ""⟩

/-- C4 (amended): validation fails — always with the one fixed message
naming the field groups `img/mask/size`, not an enumeration of the
specific missing fields — exactly when the bitmask is absent/empty, one
of `nat_w/nat_h/bm_w/bm_h` is zero or absent, or the image reference is
absent/empty AND the user has no stored last-image reference; a missing
image reference is substituted from the stored reference rather than
failing, and a missing prompt gets an empty-string fallback. -/
theorem webapp_validate_spec (p : Payload) (last : Option String) :
    ((∃ v, webappValidate p last = Except.ok v) ↔
      ¬(isFalsyStr (resolveImg p.img last) = true ∨ isFalsyStr p.bitmask = true ∨
        p.nat_w.getD 0 = 0 ∨ p.nat_h.getD 0 = 0 ∨
        p.bm_w.getD 0 = 0 ∨ p.bm_h.getD 0 = 0)) ∧
    (∀ e, webappValidate p last = Except.error e → e = missingFieldsMsg) ∧
    (∀ v, webappValidate p last = Except.ok v →
      some v.img_url = resolveImg p.img last ∧
      v.prompt = pyStrip (p.prompt.getD "")) := by
  by_cases hcond : isFalsyStr (resolveImg p.img last) = true ∨
      isFalsyStr p.bitmask = true ∨ p.nat_w.getD 0 = 0 ∨ p.nat_h.getD 0 = 0 ∨
      p.bm_w.getD 0 = 0 ∨ p.bm_h.getD 0 = 0
  · refine ⟨?_, ?_, ?_⟩
    · constructor
      · rintro ⟨v, hv⟩
        rw [webappValidate] at hv
        rw [if_pos hcond] at hv
        exact absurd hv (by simp)
      · intro hnot
        exact absurd hcond hnot
    · intro e he
      rw [webappValidate, if_pos hcond] at he
      simpa using he.symm
    · intro v hv
      rw [webappValidate, if_pos hcond] at hv
      exact absurd hv (by simp)
  · refine ⟨?_, ?_, ?_⟩
    · constructor
      · intro _
        exact hcond
      · intro _
        refine ⟨⟨(resolveImg p.img last).getD "", pyStrip (p.prompt.getD ""),
          p.nat_w.getD 0, p.nat_h.getD 0, p.bm_w.getD 0, p.bm_h.getD 0,
          p.bbox.getD (0, 0, 0, 0), p.bitmask.getD ""⟩, ?_⟩
        rw [webappValidate, if_neg hcond]
    · intro e he
      rw [webappValidate, if_neg hcond] at he
      exact absurd he (by simp)
    · intro v hv
      rw [webappValidate, if_neg hcond] at hv
      have hv' := (Except.ok.injEq _ _).mp hv.symm
      subst hv'
      constructor
      · have hi : isFalsyStr (resolveImg p.img last) = false := by
          by_cases hif : isFalsyStr (resolveImg p.img last) = true
          · exact absurd (Or.inl hif) hcond
          · simpa using hif
        cases hres : resolveImg p.img last with
        | none => rw [hres] at hi; exact absurd hi (by simp [isFalsyStr])
        | some s => simp [hres]
      · rfl

/-- Witness for C4's amended theorem: a payload with a present image and
bitmask but `nat_w = 0` fails with the fixed message. -/
theorem webapp_validate_spec_witness :
    webappValidate ⟨some "u", none, some 0, some 80, some 10, some 8,
      none, some "AA=="⟩ none = Except.error missingFieldsMsg := by
  cases hv : webappValidate ⟨some "u", none, some 0, some 80, some 10, some 8,
      none, some "AA=="⟩ none with
  | error e =>
      have := (webapp_validate_spec ⟨some "u", none, some 0, some 80, some 10,
        some 8, none, some "AA=="⟩ none).2.1 e hv
      rw [this]
  | ok v =>
      have hiff := (webapp_validate_spec ⟨some "u", none, some 0, some 80,
        some 10, some 8, none, some "AA=="⟩ none).1
      have := hiff.mp ⟨v, hv⟩
      exact absurd (by decide) this

/-- Counterexample to C4 as stated: a payload whose `img` field is
absent does NOT fail validation when the user has a stored last-image
reference (so "for every payload with an absent image reference the
validation stage fails" is false), and the failure reply for a payload
missing only `bitmask` is the fixed message, which does not name
`bitmask` (so the error does not enumerate the specific missing
fields). -/
theorem webapp_validate_counterexample :
    (∃ v, webappValidate ⟨none, some "hi", some 100, some 80, some 10, some 8,
        some (1, 2, 3, 4), some "AA=="⟩
        (some "https://funfishinggame.store/uploads/a.png") = Except.ok v) ∧
    webappValidate ⟨some "https://funfishinggame.store/uploads/a.png", some "hi",
        some 100, some 80, some 10, some 8, some (1, 2, 3, 4), none⟩ none =
      Except.error missingFieldsMsg ∧
    strContains missingFieldsMsg "bitmask" = false := by
  refine ⟨⟨_, rfl⟩, rfl, by decide⟩

/-! ### Last-image map: `LAST_IMAGE_URL` (src/bot.py lines 40, 202)

`LAST_IMAGE_URL: dict[int, str]` keyed by the Telegram user id; written
on each accepted image in `got_image`, read by `webapp_data` and
`brush_cmd`. -/

/-- `LAST_IMAGE_URL[uid] = url` (src/bot.py line 202). -/
def setLastImage (m : Nat → Option String) (uid : Nat) (url : String) :
    Nat → Option String :=
  fun u => if u = uid then some url else m u

/-- C10: a payload with an absent/empty `img` field does not fail
validation immediately: the user's stored last-image reference is
substituted (and carried into the validated request), the missing-fields
error arises only when no stored reference exists either, and the store
itself is a last-write-wins map keyed by user id whose writes do not
affect other users. -/
theorem img_fallback_spec (p : Payload) (u : String)
    (himg : isFalsyStr p.img = true)
    (hu : u ≠ "")
    (hmask : isFalsyStr p.bitmask = false)
    (hw : p.nat_w.getD 0 ≠ 0) (hh : p.nat_h.getD 0 ≠ 0)
    (hbw : p.bm_w.getD 0 ≠ 0) (hbh : p.bm_h.getD 0 ≠ 0)
    (m : Nat → Option String) (uid v : Nat) (a b : String) :
    (∃ r, webappValidate p (some u) = Except.ok r ∧ r.img_url = u) ∧
    webappValidate p none = Except.error missingFieldsMsg ∧
    setLastImage (setLastImage m uid a) uid b uid = some b ∧
    (v ≠ uid → setLastImage m uid a v = m v) := by
  have hres : resolveImg p.img (some u) = some u := by
    cases hp : p.img with
    | none => rfl
    | some s =>
        rw [hp] at himg
        have hs : s = "" := by simpa [isFalsyStr] using himg
        simp [resolveImg, hs]
  have hresn : resolveImg p.img none = none := by
    cases hp : p.img with
    | none => rfl
    | some s =>
        rw [hp] at himg
        have hs : s = "" := by simpa [isFalsyStr] using himg
        simp [resolveImg, hs]
  refine ⟨?_, ?_, ?_, ?_⟩
  · have hcond : ¬(isFalsyStr (resolveImg p.img (some u)) = true ∨
        isFalsyStr p.bitmask = true ∨ p.nat_w.getD 0 = 0 ∨ p.nat_h.getD 0 = 0 ∨
        p.bm_w.getD 0 = 0 ∨ p.bm_h.getD 0 = 0) := by
      rw [hres]
      intro hor
      rcases hor with hx | hx | hx | hx | hx | hx
      · rw [isFalsyStr] at hx
        exact hu (by simpa using hx)
      · rw [hmask] at hx
        exact Bool.noConfusion hx
      · exact hw hx
      · exact hh hx
      · exact hbw hx
      · exact hbh hx
    refine ⟨⟨(resolveImg p.img (some u)).getD "", pyStrip (p.prompt.getD ""),
      p.nat_w.getD 0, p.nat_h.getD 0, p.bm_w.getD 0, p.bm_h.getD 0,
      p.bbox.getD (0, 0, 0, 0), p.bitmask.getD ""⟩, ?_, ?_⟩
    · rw [webappValidate, if_neg hcond]
    · rw [hres]
      rfl
  · have hcond : isFalsyStr (resolveImg p.img none) = true ∨
        isFalsyStr p.bitmask = true ∨ p.nat_w.getD 0 = 0 ∨ p.nat_h.getD 0 = 0 ∨
        p.bm_w.getD 0 = 0 ∨ p.bm_h.getD 0 = 0 := by
      rw [hresn]
      exact Or.inl rfl
    rw [webappValidate, if_pos hcond]
  · simp [setLastImage]
  · intro hvne
    simp [setLastImage, hvne]

/-! ### Prompt handling in `webapp_data` (lines 225, 266-279)

The payload prompt is stripped at intake (`(data.get("prompt") or "").strip()`);
the translation result replaces it only when a provider was attributed and
the translated text is nonempty; the Stability call receives
`prompt_to_send or "inpaint"`. -/

/-- `prompt_to_send` after the translation block (lines 266-275): the
stripped prompt, replaced by the translation exactly when
`provider and translated` is truthy. -/
def prompt_to_send (prompt : String) (env : TranslateEnv) : String :=
  if prompt = "" then prompt
  else
    match (translate_ru_to_en env prompt).1 with
    | (tr, some _) => if tr = "" then prompt else tr
    | (_, none) => prompt

/-- The prompt string handed to `call_stability_inpaint` (line 279):
`prompt_to_send or "inpaint"`. -/
def promptArg (rawPrompt : Option String) (env : TranslateEnv) : String :=
  if prompt_to_send (pyStrip (rawPrompt.getD "")) env = "" then "inpaint"
  else prompt_to_send (pyStrip (rawPrompt.getD "")) env

/-- C9: for every request whose prompt is empty or whitespace-only after
stripping, the string handed to the backend call is the fixed literal
`"inpaint"`, so the outbound form carries the prompt field with value
`"inpaint"`; and the form omits the prompt field exactly when the handed
string is whitespace-only — which this substitution prevents for these
requests. -/
theorem empty_prompt_spec (rawPrompt : Option String) (env : TranslateEnv)
    (h : pyStrip (rawPrompt.getD "") = "") :
    promptArg rawPrompt env = "inpaint" ∧
    formPromptField (promptArg rawPrompt env) = some "inpaint" ∧
    (∀ s, formPromptField s = none ↔ pyStrip s = "") := by
  have hpts : prompt_to_send "" env = "" := by
    rw [prompt_to_send]
    rfl
  have harg : promptArg rawPrompt env = "inpaint" := by
    rw [promptArg, h, hpts]
    rfl
  refine ⟨harg, ?_, ?_⟩
  · rw [harg]
    rfl
  · intro s
    constructor
    · intro hn
      by_cases hs : pyStrip s = ""
      · exact hs
      · rw [formPromptField, if_neg hs] at hn
        exact absurd hn (by simp)
    · intro hs
      rw [formPromptField, if_pos hs]

/-- Witness for C9: a whitespace-only payload prompt is handed to the
backend as `"inpaint"` and the form keeps its prompt field. -/
theorem empty_prompt_spec_witness :
    promptArg (some "   ") ⟨"", ProviderResponse.exn, "", ProviderResponse.exn⟩ =
      "inpaint" ∧
    formPromptField (promptArg (some "   ")
      ⟨"", ProviderResponse.exn, "", ProviderResponse.exn⟩) = some "inpaint" := by
  have h := empty_prompt_spec (some "   ")
    ⟨"", ProviderResponse.exn, "", ProviderResponse.exn⟩ (by decide)
  exact ⟨h.1, h.2.1⟩

/-- Witness for C10: a payload with no `img` field passes validation via
the stored reference, fails without one, and the per-user store is
last-write-wins. -/
theorem img_fallback_spec_witness :
    webappValidate ⟨none, some "hi", some 100, some 80, some 10, some 8,
      some (1, 2, 3, 4), some "AA=="⟩ none = Except.error missingFieldsMsg ∧
    setLastImage (setLastImage (fun _ => none) 5 "p") 5 "q" 5 = some "q" := by
  have h := img_fallback_spec ⟨none, some "hi", some 100, some 80, some 10,
    some 8, some (1, 2, 3, 4), some "AA=="⟩ "https://x/u.png" rfl (by decide)
    (by decide) (by decide) (by decide) (by decide) (by decide)
    (fun _ => none) 5 6 "p" "q"
  exact ⟨h.2.1, h.2.2.1⟩
